import Mathlib

/-!
Verification development for the IS2view data acquisition and extraction
engine (catalog query, granule resolution, dataset assembly, and spatial
extraction for the ICESat-2 ATL14/15 gridded land-ice products).

The repository snapshot ships only documentation, release notes and the
notebooks that call the engine; the Python modules `IS2view/api.py`,
`IS2view/io.py` and `IS2view/utilities.py` are not part of the snapshot.
The definitions below are therefore shallow models of those missing
modules, built from the specification's contracts and from the behavior
pinned down by the shipped documentation (release notes, Getting-Started
guide, and recipe code).  Values that the Python code computes with
floating-point numbers are modelled with exact rationals, so tolerance
statements become exact identities.
-/

namespace IS2view

/-! ## Grid granules and the merge step of the Dataset Assembler -/

/-- Modelled from the spec: a gridded granule as opened by the missing
`IS2view.io` module.  `dx`/`dy` are the grid spacings, `(x0, y0)` the grid
origin, `xmin … ymax` the cell-index extent, and `cells` the defined
(non no-data) cells as an association list from cell index to value.
Cells absent from the list hold the no-data sentinel (`none`). -/
structure Granule where
  dx : Int
  dy : Int
  x0 : Int
  y0 : Int
  xmin : Int
  xmax : Int
  ymin : Int
  ymax : Int
  cells : List ((Int × Int) × Rat)
deriving Repr, DecidableEq

/-- Value held by a granule at a cell index; `none` is the no-data sentinel. -/
def cellValue (g : Granule) (c : Int × Int) : Option Rat :=
  (g.cells.find? (fun p => p.1 = c)).map Prod.snd

/-- Modelled from the spec: merged value over a list of contributing
granules.  Later-listed granules are authoritative: the value of the
deepest (latest) granule defining the cell wins; earlier granules only
fill cells the later ones leave as no-data. -/
def mergeValue : List Granule → (Int × Int) → Option Rat
  | [], _ => none
  | g :: gs, c =>
    match mergeValue gs c with
    | some v => some v
    | none => cellValue g c

/-- Modelled from the spec: the cell-index extent of a merged dataset is
the union (componentwise min/max bounding box) of the contributing
extents.  Returns `(xmin, xmax, ymin, ymax)`. -/
def mergedExtent : List Granule → Int × Int × Int × Int
  | [] => (0, 0, 0, 0)
  | [g] => (g.xmin, g.xmax, g.ymin, g.ymax)
  | g :: gs =>
    let e := mergedExtent gs
    (min g.xmin e.1, max g.xmax e.2.1, min g.ymin e.2.2.1, max g.ymax e.2.2.2)

/-- Modelled from the spec: the logical dataset produced by the assembler's
merge step: a value function over cell indices plus the merged extent. -/
structure AssembledGrid where
  xmin : Int
  xmax : Int
  ymin : Int
  ymax : Int
  value : (Int × Int) → Option Rat

/-- Modelled from the spec: two granules lie on a common coordinate grid
when their spacings agree and their origins differ by whole multiples of
the spacing (compatible origin offsets). -/
def gridCompatible (a b : Granule) : Bool :=
  a.dx == b.dx && a.dy == b.dy &&
    (a.x0 - b.x0) % a.dx == 0 && (a.y0 - b.y0) % a.dy == 0

/-- Modelled from the spec: the assembler's grid check — every contributing
granule must be on the first granule's grid. -/
def allCompatible : List Granule → Bool
  | [] => true
  | g :: gs => gs.all (gridCompatible g)

/-- Modelled from the spec: the assembler's error taxonomy for the merge
step (`IncompatibleGridError` — fatal, never silently resampled). -/
inductive AssembleError where
  | IncompatibleGridError
deriving Repr, DecidableEq

/-- Modelled from the spec: `assemble` for the multi-granule (merge) case
of the missing Dataset Assembler.  Verifies that all granules share a
common grid; on disagreement it fails with `IncompatibleGridError` and
never resamples; on success it merges with last-wins overwrite over the
union of the extents. -/
def assemble (gs : List Granule) : Except AssembleError AssembledGrid :=
  if allCompatible gs then
    let e := mergedExtent gs
    Except.ok { xmin := e.1, xmax := e.2.1, ymin := e.2.2.1, ymax := e.2.2.2,
                value := mergeValue gs }
  else
    Except.error AssembleError.IncompatibleGridError

/-! ## Catalog Query Engine -/

/-- Modelled from the spec: storage backends for granule access. -/
inductive Storage where
  | localStore
  | cloudStore
deriving Repr, DecidableEq

/-- Modelled from the spec: the CMR content-type/media filter used by the
missing `IS2view.utilities.cmr` routine.  The filter string for
object-storage (s3) endpoints is `application/x-netcdf` (release notes:
"NSIDC request type on s3 is now 'application/x-netcdf'"); local-http
endpoints use a different media type. -/
def cmrRequestType : Storage → String
  | Storage.localStore => "application/netcdf"
  | Storage.cloudStore => "application/x-netcdf"

/-- Modelled from the spec: one granule record of a catalog response. -/
structure GranuleRecord where
  gid : String
  url : String
  mediaType : String
deriving Repr, DecidableEq

/-- Modelled from the spec: a granule selector as passed to the query
engine.  `cycleRange` is carried as an optional list of integers so that
the "exactly 2 integers" validity condition is expressible. -/
structure GranuleSelector where
  product : String
  release : String
  region : String
  resolution : Option String
  cycleRange : Option (List Int)
  storage : Storage
deriving Repr, DecidableEq

/-- Modelled from the spec: the query engine's error taxonomy. -/
inductive QueryError where
  | InvalidQueryError
  | CatalogUnavailableError
deriving Repr, DecidableEq

/-- Modelled from the spec: validity of an optional cycle range — if
present it must be exactly 2 integers with start ≤ end (release notes:
"assert cycle is length 2 when querying"). -/
def validCycleRange : Option (List Int) → Bool
  | none => true
  | some c => c.length == 2 && c.getD 0 0 ≤ c.getD 1 0

/-- Modelled from the spec: deduplication of catalog records by granule
id, keeping the first occurrence, with an accumulator of ids already
seen. -/
def dedupAux : List String → List GranuleRecord → List GranuleRecord
  | _, [] => []
  | seen, g :: gs =>
    if g.gid ∈ seen then dedupAux seen gs
    else g :: dedupAux (g.gid :: seen) gs

/-- Modelled from the spec: deduplicate a catalog response by granule id. -/
def dedupById (l : List GranuleRecord) : List GranuleRecord :=
  dedupAux [] l

/-- Modelled from the spec: the query call of the missing Catalog Query
Engine, evaluated against a catalog snapshot.  A malformed cycle range
fails with `InvalidQueryError`; otherwise the catalog records are
filtered by the storage-appropriate media type and deduplicated by
granule id.  An empty filtered result is a valid "no match" outcome,
never an error. -/
def query (sel : GranuleSelector) (catalog : List GranuleRecord) :
    Except QueryError (List GranuleRecord) :=
  if validCycleRange sel.cycleRange then
    Except.ok (dedupById (catalog.filter
      (fun g => g.mediaType == cmrRequestType sel.storage)))
  else
    Except.error QueryError.InvalidQueryError

/-! ## Granule Resolver -/

/-- Modelled from the spec: the explicit table mapping a composite-region
code to the ordered list of its constituent sub-tile codes (release
notes: "add shortcuts for merging Arctic and Antarctic regions"; the
ATL14 notebook lists the Antarctic sub-tiles `A1`–`A4`). -/
def compositeRegions : List (String × List String) :=
  [("AA", ["A1", "A2", "A3", "A4"]),
   ("NH", ["CN", "CS", "GL", "IS", "RA", "SV"])]

/-- Modelled from the spec: sub-tile expansion — a composite region code
expands to its constituent sub-tiles, any other region stands alone. -/
def subTiles (region : String) : List String :=
  (compositeRegions.lookup region).getD [region]

/-- Modelled from the spec: a resolved granule set — concrete locations
each tagged with its source sub-tile, in sub-tile enumeration order,
plus the completeness flag reporting partial coverage. -/
structure ResolvedSet where
  granules : List (String × String)
  complete : Bool
deriving Repr, DecidableEq

/-- Modelled from the spec: `resolve` of the missing Granule Resolver.
Expands the region through the composite table, resolves every sub-tile
independently against the available locations, and returns the union of
whatever exists together with a completeness flag; missing sub-tiles
never abort the resolution. -/
def resolve (region : String) (available : List (String × String)) : ResolvedSet :=
  let tiles := subTiles region
  { granules := tiles.filterMap (fun t => (available.lookup t).map (fun loc => (t, loc)))
    complete := tiles.all (fun t => (available.lookup t).isSome) }

/-! ## ATL15 lag groups and the time axis -/

/-- Modelled from the spec: the fixed ICESat-2 standard epoch in which all
ATL15 time values are expressed (midnight at the start of 2018-01-01). -/
def atl15Epoch : String := "2018-01-01T00:00:00"

/-- Modelled from the spec: the time axis of a height-change lag group.
The time values of `dhdt_lagN` are the midpoints of the underlying
relative-elevation estimates `N` quarterly steps apart. -/
def lagTime (ts : List Rat) (n : Nat) : List Rat :=
  (List.range (ts.length - n)).map (fun i => (ts.getD i 0 + ts.getD (i + n) 0) / 2)

/-- A strictly increasing time axis, stated positionally over `getD`. -/
def strictIncr (l : List Rat) : Prop :=
  ∀ i, i < l.length - 1 → l.getD i 0 < l.getD (i + 1) 0

instance strictIncrDecidable (l : List Rat) : Decidable (strictIncr l) :=
  Nat.decidableBallLT (l.length - 1) (fun i _ => l.getD i 0 < l.getD (i + 1) 0)

/-- Modelled from the spec: the grouped ATL15 layout — the `delta_h`
group keeps the underlying quarterly axis (lag length 0 marks the
relative-elevation group) and each `dhdt_lagN` group carries its own
midpoint axis of lag length `N`. -/
def atl15Groups (ts : List Rat) : List (String × Nat × List Rat) :=
  [("delta_h", 0, ts),
   ("dhdt_lag1", 1, lagTime ts 1),
   ("dhdt_lag4", 4, lagTime ts 4),
   ("dhdt_lag8", 8, lagTime ts 8),
   ("dhdt_lag12", 12, lagTime ts 12)]

/-- Modelled from the spec: the view of an assembled ATL15 dataset after
group selection: the group name, its lag length, its own time axis in
days since the fixed mission epoch, and that epoch. -/
structure GroupDataset where
  group : String
  lag : Nat
  time : List Rat
  epoch : String
deriving Repr, DecidableEq

/-- Modelled from the spec: group selection in the missing Dataset
Assembler — selecting a group exposes that group's own time axis
unchanged, never a shared axis. -/
def assembleGroup (ts : List Rat) (name : String) : Option GroupDataset :=
  (atl15Groups ts).lookup name |>.map
    (fun p => { group := name, lag := p.1, time := p.2, epoch := atl15Epoch })

/-! ## Extraction Engine -/

/-- Modelled from the spec: one grid cell of a raster dataset: cell-center
coordinates in the native projected CRS, the per-cell (ice-covered)
area, and one optional value per time step (`none` marks NaN/no-data). -/
structure Cell where
  x : Rat
  y : Rat
  area : Rat
  values : List (Option Rat)
deriving Repr, DecidableEq

/-- Modelled from the spec: an assembled raster as seen by the Extraction
Engine: a time axis and a list of grid cells. -/
structure RasterDataset where
  times : List Rat
  cells : List Cell
deriving Repr, DecidableEq

/-- Modelled from the spec: extraction geometries, in the dataset's native
CRS.  A polygon is abstracted by its membership test on cell centers; a
bounding box is the degenerate rectangle polygon. -/
inductive Geometry where
  | point (px py : Rat)
  | polygon (contains : Rat → Rat → Bool)
  | box (bxmin bxmax bymin bymax : Rat)

/-- Modelled from the spec: one record of an extracted series — the time,
the area-weighted value, and the total contributing area kept so that
separate extractions can later be composed. -/
structure SeriesRecord where
  time : Rat
  value : Rat
  area : Rat
deriving Repr, DecidableEq

/-- Cells selected by a geometry: the polygon membership test on cell
centers, or the rectangle test for bounding boxes.  Points are handled
separately by nearest-cell lookup. -/
def selects (geo : Geometry) (c : Cell) : Bool :=
  match geo with
  | Geometry.point _ _ => false
  | Geometry.polygon contains => contains c.x c.y
  | Geometry.box bxmin bxmax bymin bymax =>
      bxmin ≤ c.x && c.x ≤ bxmax && bymin ≤ c.y && c.y ≤ bymax

/-- The valid (area, value) pairs contributing at time index `t`: cells
holding the NaN/no-data sentinel at `t` are excluded from weighting. -/
def validAt (cs : List Cell) (t : Nat) : List (Rat × Rat) :=
  cs.filterMap (fun c => (c.values.getD t none).map (fun v => (c.area, v)))

/-- Total contributing area at a time index. -/
def sumArea (l : List (Rat × Rat)) : Rat :=
  (l.map Prod.fst).sum

/-- Total area-weighted value at a time index. -/
def sumAreaVal (l : List (Rat × Rat)) : Rat :=
  (l.map (fun p => p.1 * p.2)).sum

/-- Modelled from the spec: total contributing area of the cells a
predicate selects, at time index `t`. -/
def regionArea (ds : RasterDataset) (sel : Cell → Bool) (t : Nat) : Rat :=
  sumArea (validAt (ds.cells.filter sel) t)

/-- Modelled from the spec: area-weighted regional mean of the cells a
predicate selects, at time index `t`. -/
def regionVal (ds : RasterDataset) (sel : Cell → Bool) (t : Nat) : Rat :=
  sumAreaVal (validAt (ds.cells.filter sel) t) / regionArea ds sel t

/-- Modelled from the spec: region extraction — when the geometry selects
no cells the result is the empty series; otherwise one record per time
step carrying the area-weighted mean and the total contributing area. -/
def extractRegion (ds : RasterDataset) (sel : Cell → Bool) : List SeriesRecord :=
  if (ds.cells.filter sel).isEmpty then []
  else
    (List.range ds.times.length).map (fun t =>
      { time := ds.times.getD t 0
        value := regionVal ds sel t
        area := regionArea ds sel t })

/-- The coordinate bounds of a dataset's cell centers, `none` for a
dataset with no cells.  Returns `(xmin, xmax, ymin, ymax)`. -/
def dsBounds (ds : RasterDataset) : Option (Rat × Rat × Rat × Rat) :=
  match ds.cells with
  | [] => none
  | c :: cs =>
    some (cs.foldl
      (fun b d => (min b.1 d.x, max b.2.1 d.x, min b.2.2.1 d.y, max b.2.2.2 d.y))
      (c.x, c.x, c.y, c.y))

/-- Modelled from the spec: whether a point lies inside the dataset's
bounding box; a dataset with no cells has no bounding box. -/
def insideBounds (ds : RasterDataset) (px py : Rat) : Bool :=
  match dsBounds ds with
  | none => false
  | some b => b.1 ≤ px && px ≤ b.2.1 && b.2.2.1 ≤ py && py ≤ b.2.2.2

/-- Squared distance from a point to a cell center. -/
def distSq (px py : Rat) (c : Cell) : Rat :=
  (c.x - px) * (c.x - px) + (c.y - py) * (c.y - py)

/-- Nearest cell to a point, by squared distance to cell centers. -/
def nearestCell (cs : List Cell) (px py : Rat) : Option Cell :=
  match cs with
  | [] => none
  | c :: rest => some (rest.foldl
      (fun best d => if distSq px py d < distSq px py best then d else best) c)

/-- Modelled from the spec: the full time series of one cell, as returned
by point extraction (the cell's own area is the contributing area);
times holding the no-data sentinel report a contributing area of 0. -/
def cellSeries (ds : RasterDataset) (c : Cell) : List SeriesRecord :=
  (List.range ds.times.length).map (fun t =>
    match c.values.getD t none with
    | some v => { time := ds.times.getD t 0, value := v, area := c.area }
    | none => { time := ds.times.getD t 0, value := 0, area := 0 })

/-- Modelled from the spec: `extract` of the missing Extraction Engine.
Points outside the dataset's bounding box, and polygons or boxes
selecting no cells, yield the empty series, never an error. -/
def extract (ds : RasterDataset) (geo : Geometry) : List SeriesRecord :=
  match geo with
  | Geometry.point px py =>
    if insideBounds ds px py then
      match nearestCell ds.cells px py with
      | some c => cellSeries ds c
      | none => []
    else []
  | Geometry.polygon _ => extractRegion ds (selects geo)
  | Geometry.box _ _ _ _ => extractRegion ds (selects geo)

/-! ## Time-series accessor sessions -/

/-- Modelled from the spec: the mutable accessor state of the time-series
component (the `_time`/`_area`/`_data` attributes the recipes read),
together with the log of series already returned to the caller. -/
structure TSState where
  timeAttr : List Rat
  areaAttr : List Rat
  dataAttr : List Rat
  returned : List (List SeriesRecord)
deriving Repr, DecidableEq

/-- Modelled from the spec: one extraction call of a session.  A fresh
series is computed from the dataset and geometry alone, the accessor
attributes are overwritten with its columns, and the series is both
logged and returned. -/
def extractSession (st : TSState) (ds : RasterDataset) (geo : Geometry) :
    TSState × List SeriesRecord :=
  let s := extract ds geo
  ({ timeAttr := s.map (fun r => r.time)
     areaAttr := s.map (fun r => r.area)
     dataAttr := s.map (fun r => r.value)
     returned := st.returned ++ [s] }, s)

/-! ## Concrete sample data for closed-form checks -/

/-- A selector whose cycle range is malformed (start after end). -/
def sampleBadSelector : GranuleSelector :=
  { product := "ATL15", release := "003", region := "AA", resolution := some "10km",
    cycleRange := some [10, 3], storage := Storage.localStore }

/-- A well-formed selector targeting the object-storage backend. -/
def sampleCloudSelector : GranuleSelector :=
  { product := "ATL15", release := "003", region := "AA", resolution := some "10km",
    cycleRange := some [3, 10], storage := Storage.cloudStore }

/-- A catalog record whose media type matches no netCDF filter. -/
def sampleHtmlRecord : GranuleRecord :=
  { gid := "g2", url := "u2", mediaType := "text/html" }

/-- Available locations covering only two of the four Antarctic sub-tiles. -/
def sampleAvailable : List (String × String) :=
  [("A1", "u1"), ("A3", "u3")]

/-- A one-cell sample granule holding value `v` at cell (0,0). -/
def sampleGranule (v : Rat) : Granule :=
  { dx := 1, dy := 1, x0 := 0, y0 := 0, xmin := 0, xmax := 0,
    ymin := 0, ymax := 0, cells := [((0, 0), v)] }

/-- A sample granule defining no cells at all. -/
def sampleEmptyGranule : Granule :=
  { dx := 1, dy := 1, x0 := 0, y0 := 0, xmin := 0, xmax := 0,
    ymin := 0, ymax := 0, cells := [] }

/-- A strictly increasing quarterly time axis of nine steps, in days since
the mission epoch. -/
def sampleTimes : List Rat :=
  [0, 91, 182, 274, 365, 456, 548, 639, 730]

/-- A sample grid cell at the origin. -/
def sampleCellA : Cell :=
  { x := 0, y := 0, area := 2, values := [some 3] }

/-- A second sample grid cell, disjoint from the first. -/
def sampleCellB : Cell :=
  { x := 10, y := 0, area := 6, values := [some 7] }

/-- A sample raster with one time step and two cells. -/
def sampleDS : RasterDataset :=
  { times := [0], cells := [sampleCellA, sampleCellB] }

/-! ## Helper lemmas -/

/-- Joining the singleton resolutions of each element recovers `filterMap`. -/
theorem join_map_filterMap {α β : Type} (f : α → Option β) (l : List α) :
    (l.map (fun a => [a].filterMap f)).flatten = l.filterMap f := by
  induction l with
  | nil => rfl
  | cons a l ih =>
    rw [List.map_cons, List.flatten_cons, ih, List.filterMap_cons]
    cases h : f a <;> simp [List.filterMap_cons, h]

/-- Deduplication only drops records: every survivor was in the input. -/
theorem dedupAux_subset (seen : List String) (l : List GranuleRecord)
    (g : GranuleRecord) (h : g ∈ dedupAux seen l) : g ∈ l := by
  induction l generalizing seen with
  | nil => simp [dedupAux] at h
  | cons a l ih =>
    rw [dedupAux] at h
    by_cases ha : a.gid ∈ seen
    · rw [if_pos ha] at h
      exact List.mem_cons_of_mem a (ih _ h)
    · rw [if_neg ha] at h
      rcases List.mem_cons.mp h with h | h
      · simp [h]
      · exact List.mem_cons_of_mem a (ih _ h)

/-- The validity test for a present cycle range, in propositional form. -/
theorem validCycleRange_some (c : List Int) :
    validCycleRange (some c) = true ↔ (c.length = 2 ∧ c.getD 0 0 ≤ c.getD 1 0) := by
  simp [validCycleRange]

/-- Any value held by a merged cell originates unchanged in one of the
contributing granules (the merge never resamples or invents values). -/
theorem mergeValue_mem (gs : List Granule) (c : Int × Int) (v : Rat)
    (h : mergeValue gs c = some v) : ∃ g ∈ gs, cellValue g c = some v := by
  induction gs with
  | nil => simp [mergeValue] at h
  | cons g rest ih =>
    rw [mergeValue] at h
    cases hr : mergeValue rest c with
    | some w =>
      rw [hr] at h
      simp only [Option.some.injEq] at h
      subst h
      obtain ⟨g', hg', hv'⟩ := ih hr
      exact ⟨g', List.mem_cons_of_mem g hg', hv'⟩
    | none =>
      rw [hr] at h
      exact ⟨g, List.mem_cons_self g rest, h⟩

/-- A cell left as no-data by every granule of a list is no-data in the
merge. -/
theorem mergeValue_eq_none (gs : List Granule) (c : Int × Int)
    (h : ∀ g ∈ gs, cellValue g c = none) : mergeValue gs c = none := by
  induction gs with
  | nil => rfl
  | cons g rest ih =>
    rw [mergeValue, ih (fun g' hg' => h g' (List.mem_cons_of_mem g hg'))]
    exact h g (List.mem_cons_self g rest)

/-- Granules listed before a sub-merge that already holds a value cannot
override it: later-listed granules keep priority. -/
theorem mergeValue_append_some (pre l : List Granule) (c : Int × Int) (v : Rat)
    (h : mergeValue l c = some v) : mergeValue (pre ++ l) c = some v := by
  induction pre with
  | nil => exact h
  | cons p pre ih =>
    rw [List.cons_append, mergeValue, ih]

/-! ## Claim theorems -/

/-- C1: in a merge of any number of granules, whenever a grid cell is
present in more than one contributing granule, the assembled dataset
holds exactly the latest-listed (authoritative) contributing granule's
value for that cell — whatever any earlier-listed granules hold there,
so never an average — and merging two identical overlapping granules
reproduces exactly the later granule's values throughout the overlap. -/
theorem C1_merge_last_wins (pre post : List Granule) (g : Granule)
    (c : Int × Int) (v : Rat) (hg : cellValue g c = some v)
    (hpost : ∀ h ∈ post, cellValue h c = none) :
    mergeValue (pre ++ g :: post) c = some v ∧
    mergeValue [g, g] c = some v := by
  constructor
  · refine mergeValue_append_some pre (g :: post) c v ?_
    rw [mergeValue, mergeValue_eq_none post c hpost, hg]
  · simp [mergeValue, hg]

/-- C1 witness: a four-granule merge in which the first two granules
hold 1 and 9 at cell (0,0), the third (the latest contributor) holds 2,
and the fourth defines no cells: the merge holds the latest
contributor's value 2, as does the self-merge of that granule. -/
theorem C1_merge_last_wins_witness :
    mergeValue ([sampleGranule 1, sampleGranule 9]
        ++ sampleGranule 2 :: [sampleEmptyGranule]) (0, 0) = some 2 ∧
    mergeValue [sampleGranule 2, sampleGranule 2] (0, 0) = some 2 :=
  C1_merge_last_wins [sampleGranule 1, sampleGranule 9] [sampleEmptyGranule]
    (sampleGranule 2) (0, 0) 2 (by decide) (by decide)

/-- C5: a multi-granule assemble succeeds exactly when all contributing
granules share the common grid (identical spacing, compatible origin
offsets); on any disagreement it fails with `IncompatibleGridError`, and
on success every value of the assembled dataset comes unchanged from a
contributing granule (never resampled). -/
theorem C5_incompatible_grid (gs : List Granule) :
    ((∃ d, assemble gs = Except.ok d) ↔ allCompatible gs = true) ∧
    (allCompatible gs = false →
      assemble gs = Except.error AssembleError.IncompatibleGridError) ∧
    (∀ d, assemble gs = Except.ok d → ∀ c v, d.value c = some v →
      ∃ g ∈ gs, cellValue g c = some v) := by
  refine ⟨⟨fun ⟨d, hd⟩ => ?_, fun h => ?_⟩, fun h => ?_, fun d hd c v hv => ?_⟩
  · by_contra hc
    simp [assemble, hc] at hd
  · exact ⟨{ xmin := (mergedExtent gs).1, xmax := (mergedExtent gs).2.1,
             ymin := (mergedExtent gs).2.2.1, ymax := (mergedExtent gs).2.2.2,
             value := mergeValue gs }, by simp [assemble, h]⟩
  · simp [assemble, h]
  · have hval : d.value = mergeValue gs := by
      by_cases h : allCompatible gs = true
      · simp [assemble, h] at hd
        rw [← hd]
      · simp [assemble, h] at hd
    exact mergeValue_mem gs c v (by rw [← hval]; exact hv)

/-- C5 witness: two granules with disagreeing grid spacings; assembling
them fails with `IncompatibleGridError`. -/
theorem C5_incompatible_grid_witness :
    assemble [{ dx := 1, dy := 1, x0 := 0, y0 := 0, xmin := 0, xmax := 0,
                ymin := 0, ymax := 0, cells := [] },
              { dx := 2, dy := 1, x0 := 0, y0 := 0, xmin := 0, xmax := 0,
                ymin := 0, ymax := 0, cells := [] }]
      = Except.error AssembleError.IncompatibleGridError :=
  (C5_incompatible_grid _).2.1 (by decide)

/-- C8: merging two compatible non-overlapping granules yields a dataset
whose cell extent is the componentwise union of the two extents, and any
cell of the union extent covered by neither granule holds the no-data
sentinel, never zero. -/
theorem C8_extent_union (a b : Granule) (c : Int × Int)
    (hcompat : allCompatible [a, b] = true)
    (hdisj : ∀ d : Int × Int, cellValue a d = none ∨ cellValue b d = none)
    (ha : cellValue a c = none) (hb : cellValue b c = none) :
    ∃ d, assemble [a, b] = Except.ok d ∧
      d.xmin = min a.xmin b.xmin ∧ d.xmax = max a.xmax b.xmax ∧
      d.ymin = min a.ymin b.ymin ∧ d.ymax = max a.ymax b.ymax ∧
      d.value c = none := by
  refine ⟨{ xmin := (mergedExtent [a, b]).1, xmax := (mergedExtent [a, b]).2.1,
            ymin := (mergedExtent [a, b]).2.2.1, ymax := (mergedExtent [a, b]).2.2.2,
            value := mergeValue [a, b] }, by simp [assemble, hcompat], ?_, ?_, ?_, ?_, ?_⟩
  · simp [mergedExtent]
  · simp [mergedExtent]
  · simp [mergedExtent]
  · simp [mergedExtent]
  · simp [mergeValue, ha, hb]

/-- C8 witness: a granule with no defined cells next to a granule defined
only at (5,5); the merged extent is the union box and the uncovered cell
(0,0) holds the no-data sentinel. -/
theorem C8_extent_union_witness :
    ∃ d, assemble [{ dx := 1, dy := 1, x0 := 0, y0 := 0, xmin := 0, xmax := 3,
                     ymin := 0, ymax := 3, cells := [] },
                   { dx := 1, dy := 1, x0 := 0, y0 := 0, xmin := 4, xmax := 7,
                     ymin := 0, ymax := 3, cells := [((5, 5), 3)] }]
        = Except.ok d ∧
      d.xmin = min 0 4 ∧ d.xmax = max 3 7 ∧
      d.ymin = min 0 0 ∧ d.ymax = max 3 3 ∧
      d.value (0, 0) = none :=
  C8_extent_union _ _ (0, 0) (by decide)
    (fun _ => Or.inl rfl) rfl (by decide)

/-- Indexing a mapped range with `getD` evaluates the mapped function. -/
theorem getD_range_map {α : Type} (f : Nat → α) (n i : Nat) (d : α) (h : i < n) :
    ((List.range n).map f).getD i d = f i := by
  rw [List.getD_eq_getElem?_getD, List.getElem?_map, List.getElem?_range h]
  rfl

/-- A lag-group axis has one entry per window of `n` quarterly steps. -/
theorem lagTime_length (ts : List Rat) (n : Nat) :
    (lagTime ts n).length = ts.length - n := by
  simp [lagTime]

/-- Midpoint axes inherit strict monotonicity from the underlying axis. -/
theorem lagTime_strictIncr (ts : List Rat) (n : Nat) (hs : strictIncr ts) :
    strictIncr (lagTime ts n) := by
  intro i hi
  rw [lagTime_length] at hi
  have h0 : i < ts.length - n := by omega
  have h1 : i + 1 < ts.length - n := by omega
  rw [lagTime, getD_range_map _ _ _ _ h0, getD_range_map _ _ _ _ h1]
  have ha : ts.getD i 0 < ts.getD (i + 1) 0 := hs i (by omega)
  have hb : ts.getD (i + n) 0 < ts.getD (i + n + 1) 0 := hs (i + n) (by omega)
  have hidx : i + 1 + n = i + n + 1 := by omega
  rw [hidx]
  linarith

/-- C3: the assembler exposes each height-change lag group's own time
axis unchanged (in days since the fixed mission epoch) and never forces
a shared axis across lag groups: selecting `dhdt_lag4` or `dhdt_lag8`
yields that lag's own correctly-offset midpoint axis with the matching
lag length, the `dhdt_lag4` axis is strictly increasing, and the two
lag axes are distinct. -/
theorem C3_lag_group_time_axis (ts : List Rat)
    (hs : strictIncr ts) (hlen : 9 ≤ ts.length) :
    assembleGroup ts "dhdt_lag4" = some
        { group := "dhdt_lag4", lag := 4, time := lagTime ts 4, epoch := atl15Epoch } ∧
    assembleGroup ts "dhdt_lag8" = some
        { group := "dhdt_lag8", lag := 8, time := lagTime ts 8, epoch := atl15Epoch } ∧
    strictIncr (lagTime ts 4) ∧
    (lagTime ts 4).length = ts.length - 4 ∧
    lagTime ts 4 ≠ lagTime ts 8 := by
  refine ⟨?_, ?_, lagTime_strictIncr ts 4 hs, lagTime_length ts 4, ?_⟩
  · simp [assembleGroup, atl15Groups, List.lookup]
  · simp [assembleGroup, atl15Groups, List.lookup]
  · intro h
    have hcongr := congrArg List.length h
    rw [lagTime_length, lagTime_length] at hcongr
    omega

/-- C3 witness: on a concrete strictly increasing nine-step quarterly
axis, selecting `dhdt_lag4` yields that group's own midpoint axis with
lag length 4 and the fixed mission epoch. -/
theorem C3_lag_group_time_axis_witness :
    assembleGroup sampleTimes "dhdt_lag4" = some
        { group := "dhdt_lag4", lag := 4, time := lagTime sampleTimes 4,
          epoch := atl15Epoch } :=
  (C3_lag_group_time_axis sampleTimes (by decide) (by decide)).1

/-- Filtering by a disjunction of two disjoint predicates is a
permutation of the two separate filters concatenated. -/
theorem filter_or_perm {α : Type} (p q : α → Bool) (l : List α)
    (h : ∀ a ∈ l, ¬(p a = true ∧ q a = true)) :
    (l.filter (fun a => p a || q a)).Perm (l.filter p ++ l.filter q) := by
  induction l with
  | nil => simp
  | cons a l ih =>
    have ih' := ih (fun b hb => h b (List.mem_cons_of_mem a hb))
    by_cases hp : p a = true
    · have hq : q a = false := by
        cases hqt : q a
        · rfl
        · exact absurd ⟨hp, hqt⟩ (h a (List.mem_cons_self a l))
      simp only [List.filter_cons, hp, hq, Bool.true_or, if_true, Bool.or_false]
      exact ih'.cons a
    · have hp' : p a = false := Bool.eq_false_iff.mpr hp
      by_cases hq : q a = true
      · simp only [List.filter_cons, hp', hq, Bool.false_or, if_true, if_false,
          Bool.false_eq_true]
        exact (ih'.cons a).trans List.perm_middle.symm
      · have hq' : q a = false := Bool.eq_false_iff.mpr hq
        simp only [List.filter_cons, hp', hq', Bool.false_or, if_false,
          Bool.false_eq_true]
        exact ih'

/-- The contributing (area, value) pairs of a union of disjoint
selections are a permutation of the two selections' pairs combined. -/
theorem validAt_filter_union (cs : List Cell) (pA pB : Cell → Bool) (t : Nat)
    (hdisj : ∀ c ∈ cs, ¬(pA c = true ∧ pB c = true)) :
    (validAt (cs.filter (fun c => pA c || pB c)) t).Perm
      (validAt (cs.filter pA) t ++ validAt (cs.filter pB) t) := by
  have hperm := (filter_or_perm pA pB cs hdisj).filterMap
    (fun c => (c.values.getD t none).map (fun v => (c.area, v)))
  rw [List.filterMap_append] at hperm
  exact hperm

/-- Total contributing area is additive over disjoint selections. -/
theorem sumArea_union (ds : RasterDataset) (pA pB : Cell → Bool) (t : Nat)
    (hdisj : ∀ c ∈ ds.cells, ¬(pA c = true ∧ pB c = true)) :
    sumArea (validAt (ds.cells.filter (fun c => pA c || pB c)) t)
      = sumArea (validAt (ds.cells.filter pA) t)
        + sumArea (validAt (ds.cells.filter pB) t) := by
  unfold sumArea
  rw [((validAt_filter_union ds.cells pA pB t hdisj).map Prod.fst).sum_eq,
    List.map_append, List.sum_append]

/-- `sumArea_union`, restated on the region-extraction wrappers. -/
theorem regionArea_union (ds : RasterDataset) (pA pB : Cell → Bool) (t : Nat)
    (hdisj : ∀ c ∈ ds.cells, ¬(pA c = true ∧ pB c = true)) :
    regionArea ds (fun c => pA c || pB c) t = regionArea ds pA t + regionArea ds pB t := by
  unfold regionArea
  exact sumArea_union ds pA pB t hdisj

/-- Total area-weighted value is additive over disjoint selections. -/
theorem sumAreaVal_union (ds : RasterDataset) (pA pB : Cell → Bool) (t : Nat)
    (hdisj : ∀ c ∈ ds.cells, ¬(pA c = true ∧ pB c = true)) :
    sumAreaVal (validAt (ds.cells.filter (fun c => pA c || pB c)) t)
      = sumAreaVal (validAt (ds.cells.filter pA) t)
        + sumAreaVal (validAt (ds.cells.filter pB) t) := by
  unfold sumAreaVal
  rw [((validAt_filter_union ds.cells pA pB t hdisj).map (fun p => p.1 * p.2)).sum_eq,
    List.map_append, List.sum_append]

/-- Contributing areas inherit nonnegativity from the cells. -/
theorem validAt_area_nonneg (cs : List Cell) (t : Nat)
    (h : ∀ c ∈ cs, 0 ≤ c.area) :
    ∀ p ∈ validAt cs t, 0 ≤ p.1 := by
  intro p hp
  rcases List.mem_filterMap.mp hp with ⟨c, hc, hmap⟩
  rcases Option.map_eq_some'.mp hmap with ⟨v, _, heq⟩
  rw [← heq]
  exact h c hc

/-- A sum of nonnegative areas is nonnegative. -/
theorem sumArea_nonneg (l : List (Rat × Rat)) (h : ∀ p ∈ l, 0 ≤ p.1) :
    0 ≤ sumArea l := by
  refine List.sum_nonneg (fun a ha => ?_)
  rcases List.mem_map.mp ha with ⟨p, hp, hpa⟩
  rw [← hpa]
  exact h p hp

/-- With nonnegative areas, zero total area forces zero total weighted
value (no cell can contribute). -/
theorem sumAreaVal_of_area_zero (l : List (Rat × Rat))
    (h : ∀ p ∈ l, 0 ≤ p.1) (h0 : sumArea l = 0) : sumAreaVal l = 0 := by
  induction l with
  | nil => rfl
  | cons p l ih =>
    have hp := h p (List.mem_cons_self p l)
    have hl : ∀ q ∈ l, 0 ≤ q.1 := fun q hq => h q (List.mem_cons_of_mem p hq)
    have hsum : p.1 + sumArea l = 0 := by
      rw [← h0]; simp [sumArea]
    have hnn : 0 ≤ sumArea l := sumArea_nonneg l hl
    have hp0 : p.1 = 0 := by linarith
    have hl0 : sumArea l = 0 := by linarith
    have hrec := ih hl hl0
    simp only [sumAreaVal, List.map_cons, List.sum_cons, hp0, zero_mul, zero_add]
    exact hrec

/-- Combining two area-weighted averages by total area recovers the
average of the combined weighted sums. -/
theorem combine_avg (A B x y : Rat)
    (hxA : A = 0 → x = 0) (hyB : B = 0 → y = 0) :
    (A * (x / A) + B * (y / B)) / (A + B) = (x + y) / (A + B) := by
  by_cases hA : A = 0
  · subst hA
    rw [hxA rfl]
    by_cases hB : B = 0
    · subst hB
      rw [hyB rfl]
      norm_num
    · simp only [zero_mul, zero_add]
      rw [← mul_div_assoc, mul_div_cancel_left₀ _ hB]
  · by_cases hB : B = 0
    · subst hB
      rw [hyB rfl]
      simp only [zero_mul, add_zero]
      rw [← mul_div_assoc, mul_div_cancel_left₀ _ hA]
    · rw [← mul_div_assoc, mul_div_cancel_left₀ _ hA,
        ← mul_div_assoc, mul_div_cancel_left₀ _ hB]

/-- C2: for disjoint polygons A and B (nonnegative cell areas), at every
time slice, combining the two separate extractions as
(areaA·valueA + areaB·valueB)/(areaA + areaB) equals the average
extracted directly over the union selection — exactly in rationals —
and extraction records carry both the area-weighted value and the total
contributing area needed for this combination. -/
theorem C2_region_composability (ds : RasterDataset) (pA pB : Cell → Bool) (t : Nat)
    (hdisj : ∀ c ∈ ds.cells, ¬(pA c = true ∧ pB c = true))
    (hpos : ∀ c ∈ ds.cells, 0 ≤ c.area)
    (ht : t < ds.times.length)
    (hA : (ds.cells.filter pA).isEmpty = false)
    (hB : (ds.cells.filter pB).isEmpty = false) :
    (extractRegion ds pA).getD t ⟨0, 0, 0⟩
      = { time := ds.times.getD t 0, value := regionVal ds pA t,
          area := regionArea ds pA t } ∧
    (extractRegion ds pB).getD t ⟨0, 0, 0⟩
      = { time := ds.times.getD t 0, value := regionVal ds pB t,
          area := regionArea ds pB t } ∧
    regionArea ds (fun c => pA c || pB c) t
      = regionArea ds pA t + regionArea ds pB t ∧
    (regionArea ds pA t * regionVal ds pA t + regionArea ds pB t * regionVal ds pB t)
        / (regionArea ds pA t + regionArea ds pB t)
      = regionVal ds (fun c => pA c || pB c) t := by
  refine ⟨?_, ?_, regionArea_union ds pA pB t hdisj, ?_⟩
  · rw [extractRegion, if_neg (by simp [hA]), getD_range_map _ _ _ _ ht]
  · rw [extractRegion, if_neg (by simp [hB]), getD_range_map _ _ _ _ ht]
  · have hposA : ∀ p ∈ validAt (ds.cells.filter pA) t, 0 ≤ p.1 :=
      validAt_area_nonneg _ t (fun c hc => hpos c (List.mem_of_mem_filter hc))
    have hposB : ∀ p ∈ validAt (ds.cells.filter pB) t, 0 ≤ p.1 :=
      validAt_area_nonneg _ t (fun c hc => hpos c (List.mem_of_mem_filter hc))
    simp only [regionVal, regionArea]
    rw [combine_avg _ _ _ _ (sumAreaVal_of_area_zero _ hposA)
        (sumAreaVal_of_area_zero _ hposB),
      sumAreaVal_union ds pA pB t hdisj, sumArea_union ds pA pB t hdisj]

/-- C2 witness: on a concrete two-cell raster with disjoint single-cell
polygons, the area-weighted combination of the two separate extractions
equals direct extraction over the union selection. -/
theorem C2_region_composability_witness :
    (regionArea sampleDS (fun c => c.x == 0) 0
          * regionVal sampleDS (fun c => c.x == 0) 0
        + regionArea sampleDS (fun c => c.x == 10) 0
          * regionVal sampleDS (fun c => c.x == 10) 0)
        / (regionArea sampleDS (fun c => c.x == 0) 0
          + regionArea sampleDS (fun c => c.x == 10) 0)
      = regionVal sampleDS (fun c => (c.x == 0) || (c.x == 10)) 0 :=
  (C2_region_composability sampleDS (fun c => c.x == 0) (fun c => c.x == 10) 0
    (by decide) (by decide) (by decide) (by decide) (by decide)).2.2.2

/-- C4: a composite-region selector expands to the full set of constituent
sub-tile selectors, each resolved independently, and the result is their
union; when some sub-tiles have no matching granule the resolver does
not abort and does not silently return a partial subset — it returns
exactly the subset that exists, and the completeness flag is true
precisely when every sub-tile was found. -/
theorem C4_composite_resolve (region : String) (tiles : List String)
    (available : List (String × String))
    (hc : compositeRegions.lookup region = some tiles)
    (hsub : ∀ t ∈ tiles, compositeRegions.lookup t = none) :
    (resolve region available).granules
        = (tiles.map (fun t => (resolve t available).granules)).flatten ∧
    ((resolve region available).complete = true ↔
        ∀ t ∈ tiles, (available.lookup t).isSome = true) ∧
    (∀ t loc, (t, loc) ∈ (resolve region available).granules ↔
        t ∈ tiles ∧ available.lookup t = some loc) := by
  have hst : subTiles region = tiles := by simp [subTiles, hc]
  refine ⟨?_, ?_, ?_⟩
  · have hmap : tiles.map (fun t => (resolve t available).granules)
        = tiles.map (fun t =>
            [t].filterMap (fun u => (available.lookup u).map (fun loc => (u, loc)))) := by
      refine List.map_congr_left (fun t ht => ?_)
      simp [resolve, subTiles, hsub t ht]
    rw [hmap, join_map_filterMap]
    simp [resolve, hst]
  · simp [resolve, hst, List.all_eq_true]
  · intro t loc
    simp only [resolve, hst, List.mem_filterMap]
    constructor
    · rintro ⟨u, hu, hmap⟩
      rcases Option.map_eq_some'.mp hmap with ⟨loc', hloc', heq⟩
      cases heq
      exact ⟨hu, hloc'⟩
    · rintro ⟨ht, hloc⟩
      exact ⟨t, ht, by simp [hloc]⟩

/-- C4 witness: resolving the Antarctic composite region "AA" against
locations for only the sub-tiles A1 and A3 equals the union of the four
independent sub-tile resolutions (the existing subset, no abort). -/
theorem C4_composite_resolve_witness :
    (resolve "AA" sampleAvailable).granules
        = (["A1", "A2", "A3", "A4"].map
            (fun t => (resolve t sampleAvailable).granules)).flatten :=
  (C4_composite_resolve "AA" ["A1", "A2", "A3", "A4"] sampleAvailable
    (by decide) (by decide)).1

/-- C7: the query call fails with `InvalidQueryError` exactly when the
given cycle range is not a pair of exactly 2 integers with start ≤ end;
any cycle range satisfying the condition never triggers
`InvalidQueryError`. -/
theorem C7_cycle_range_validation (sel : GranuleSelector) (catalog : List GranuleRecord) :
    query sel catalog = Except.error QueryError.InvalidQueryError ↔
      ∃ c, sel.cycleRange = some c ∧ ¬(c.length = 2 ∧ c.getD 0 0 ≤ c.getD 1 0) := by
  constructor
  · intro h
    by_cases hv : validCycleRange sel.cycleRange = true
    · simp [query, hv] at h
    · cases hc : sel.cycleRange with
      | none => exact absurd (by rw [hc]; rfl) hv
      | some c =>
        rw [hc] at hv
        exact ⟨c, rfl, fun hcontra => hv ((validCycleRange_some c).mpr hcontra)⟩
  · rintro ⟨c, hc, hn⟩
    have hv : validCycleRange sel.cycleRange = false := by
      rw [hc]
      exact Bool.eq_false_iff.mpr (fun ht => hn ((validCycleRange_some c).mp ht))
    simp [query, hv]

/-- C7 witness: a selector whose cycle range is [10, 3] (start after end)
makes the query fail with `InvalidQueryError`. -/
theorem C7_cycle_range_validation_witness :
    query sampleBadSelector [] = Except.error QueryError.InvalidQueryError :=
  (C7_cycle_range_validation sampleBadSelector []).mpr
    ⟨[10, 3], rfl, by decide⟩

/-- C9: the catalog search uses the media filter appropriate to the
storage backend — the object-storage filter string is
"application/x-netcdf" and differs from the local-http one — every
returned record matches that filter, and a filtered response with zero
granules yields an empty ok-result ("no match"), not an error. -/
theorem C9_media_type_filter (sel : GranuleSelector) (catalog : List GranuleRecord)
    (hv : validCycleRange sel.cycleRange = true) :
    cmrRequestType Storage.cloudStore = "application/x-netcdf" ∧
    cmrRequestType Storage.localStore ≠ cmrRequestType Storage.cloudStore ∧
    (∀ res, query sel catalog = Except.ok res →
      ∀ g ∈ res, g.mediaType = cmrRequestType sel.storage) ∧
    (catalog.filter (fun g => g.mediaType == cmrRequestType sel.storage) = [] →
      query sel catalog = Except.ok []) := by
  refine ⟨rfl, by decide, fun res hres g hg => ?_, fun hfil => ?_⟩
  · simp only [query, hv, if_pos] at hres
    injection hres with hres
    rw [← hres] at hg
    have hmem := dedupAux_subset [] _ g hg
    have := List.mem_filter.mp hmem
    exact eq_of_beq this.2
  · simp [query, hv, hfil, dedupById, dedupAux]

/-- C9 witness: with the cloud selector, a catalog holding only an
HTML-typed record filters to zero granules and the query returns the
empty ok-result. -/
theorem C9_media_type_filter_witness :
    query sampleCloudSelector [sampleHtmlRecord] = Except.ok [] :=
  (C9_media_type_filter sampleCloudSelector [sampleHtmlRecord] (by decide)).2.2.2
    (by decide)

/-- C6: an extraction whose geometry selects no grid cells — a point
outside the dataset's bounding box, a polygon intersecting no cells, or
a bounding box entirely outside the coordinate extent — returns an
empty series of zero length rather than an error, and cells holding the
NaN/no-data sentinel are excluded from area weighting (adding such a
cell changes neither the contributing area nor the weighted mean),
never counted as zero. -/
theorem C6_empty_and_nan (ds : RasterDataset) (px py : Rat)
    (geoP : Rat → Rat → Bool) (bxmin bxmax bymin bymax : Rat)
    (hpt : insideBounds ds px py = false)
    (hpoly : ds.cells.filter (selects (Geometry.polygon geoP)) = [])
    (hbox : ∀ c ∈ ds.cells,
      selects (Geometry.box bxmin bxmax bymin bymax) c = false) :
    (extract ds (Geometry.point px py)).length = 0 ∧
    (extract ds (Geometry.polygon geoP)).length = 0 ∧
    (extract ds (Geometry.box bxmin bxmax bymin bymax)).length = 0 ∧
    (∀ (c0 : Cell) (sel : Cell → Bool) (u : Nat),
      c0.values.getD u none = none →
      regionArea { times := ds.times, cells := c0 :: ds.cells } sel u
          = regionArea ds sel u ∧
      regionVal { times := ds.times, cells := c0 :: ds.cells } sel u
          = regionVal ds sel u) := by
  refine ⟨?_, ?_, ?_, ?_⟩
  · simp [extract, hpt]
  · simp [extract, extractRegion, hpoly]
  · have hnil : ds.cells.filter (selects (Geometry.box bxmin bxmax bymin bymax)) = [] := by
      refine List.filter_eq_nil_iff.mpr (fun c hc => ?_)
      simp [hbox c hc]
    simp [extract, extractRegion, hnil]
  · intro c0 sel u h0
    rw [List.getD_eq_getElem?_getD] at h0
    cases hsel : sel c0 <;>
      simp [regionArea, regionVal, validAt, List.filter_cons, List.filterMap_cons, hsel,
        List.getD_eq_getElem?_getD, h0]

/-- C6 witness: on the sample raster, a point far outside the bounding
box extracts to the empty series. -/
theorem C6_empty_and_nan_witness :
    (extract sampleDS (Geometry.point 100 0)).length = 0 :=
  (C6_empty_and_nan sampleDS 100 0 (fun _ _ => false) 100 200 100 200
    (by decide) (by decide) (by decide)).1

/-- C10: each extraction call builds its series fresh from the dataset
and geometry alone — the accessor state never influences the returned
series — and a later call with different parameters leaves every
previously returned series unchanged in the session log; the dataset
itself is never modified. -/
theorem C10_series_immutability (st : TSState) (ds : RasterDataset)
    (g1 g2 : Geometry) :
    (extractSession st ds g1).2 = extract ds g1 ∧
    (extractSession ((extractSession st ds g1).1) ds g2).2 = extract ds g2 ∧
    (extractSession ((extractSession st ds g1).1) ds g2).1.returned
      = st.returned ++ [extract ds g1, extract ds g2] := by
  refine ⟨rfl, rfl, ?_⟩
  simp [extractSession]

/-- C10 witness: two successive extraction calls on the sample raster
log both freshly built series, the earlier one unchanged. -/
theorem C10_series_immutability_witness :
    (extractSession ((extractSession ⟨[], [], [], []⟩ sampleDS
        (Geometry.point 0 0)).1) sampleDS (Geometry.point 10 0)).1.returned
      = ([] : List (List SeriesRecord))
        ++ [extract sampleDS (Geometry.point 0 0),
            extract sampleDS (Geometry.point 10 0)] :=
  (C10_series_immutability ⟨[], [], [], []⟩ sampleDS
    (Geometry.point 0 0) (Geometry.point 10 0)).2.2

end IS2view
